import Mathlib

/-!
# HyperLearn (src/hyperlearn/src/App.jsx): storage, accounts, sessions, catalog, Runner

A shallow embedding of the functions of `App.jsx` that read and write
`localStorage`, of the tutorial filter, and of the `Runner` effect.

Conventions of the embedding.

* `localStorage` holds text. An entry is represented by what `JSON.parse` makes
  of its text (`Item.json v`), or by `Item.malformed` when the text is empty or
  is rejected by `JSON.parse`, or by `Item.absent` when `getItem` returns `null`.
  `JSON.stringify` followed by `JSON.parse` gives back the value for the values
  stored here (strings, integers, records and arrays of them).
* A JavaScript object used as a dictionary is the map of its own properties.
  Reading `o[k]` also sees the members inherited from `Object.prototype`.
* `async` functions are run to completion, one after the other. The clock
  (`Date.now()`) and the digest (`crypto.subtle.digest` rendered by `bytesToHex`)
  are inputs.
* The built-ins `String.prototype.toLowerCase`, `JSON.stringify` and `String`
  are inputs too: the first as a function fixed on ASCII texts, the other two
  by their outcome on each logged value (a text, `undefined`, or a thrown error).
-/

namespace HyperLearn

/-! ## JavaScript objects as dictionaries -/

/-- Own properties of a plain JavaScript object (one made by an object literal or by `JSON.parse`). -/
abbrev JSObject (α : Type) := String → Option α

/-- The object literal with no property. -/
def JSObject.empty {α : Type} : JSObject α := fun _ => none

/-- Names of the members that every plain object inherits from `Object.prototype`. -/
def objectPrototypeKeys : List String :=
  ["constructor", "__defineGetter__", "__defineSetter__", "hasOwnProperty",
   "__lookupGetter__", "__lookupSetter__", "isPrototypeOf", "propertyIsEnumerable",
   "toString", "valueOf", "__proto__", "toLocaleString"]

/-- Result of the property read `o[k]` on a plain object whose own values are all objects. -/
inductive PropertyRead (α : Type) where
  /-- An own property: the stored value. -/
  | own (v : α)
  /-- A member of `Object.prototype` (a function, or for `__proto__` the prototype itself). -/
  | inherited
  /-- No such property: `undefined`. -/
  | undefined
  deriving DecidableEq, Repr

/-- The property read `o[k]`: own properties first, then `Object.prototype`. -/
def getProp {α : Type} (o : JSObject α) (k : String) : PropertyRead α :=
  match o k with
  | some v => .own v
  | none => if k ∈ objectPrototypeKeys then .inherited else .undefined

/-- The assignment `o[k] = v` on a plain object, as far as own properties go.
An own property is overwritten. Without one, `__proto__` reaches the setter
inherited from `Object.prototype`, which changes the prototype and creates no
own property; any other name gets a new own property. -/
def setProp {α : Type} (o : JSObject α) (k : String) (v : α) : JSObject α :=
  if (o k).isNone ∧ k = "__proto__" then o else Function.update o k (some v)

/-- The object spread `{ ...a, ...b }`: the properties of `a`, overwritten and extended by those of `b`. -/
def spread {α : Type} (a b : JSObject α) : JSObject α :=
  fun f => match b f with
    | some v => some v
    | none => a f

/-! ## Values kept in `localStorage` -/

/-- A JSON value kept in a progress record. Arrays and nested objects are
represented by their JSON text. -/
inductive JSON where
  | null
  | boolean (b : Bool)
  | number (n : Int)
  | string (s : String)
  | structured (text : String)
  deriving DecidableEq, Repr

/-- The record `{ email, passHash, displayName, createdAt }` stored by `createUser`. -/
structure Account where
  email : String
  passHash : String
  displayName : String
  createdAt : Nat
  deriving DecidableEq, Repr

/-- The record `{ email, token }` stored by `signIn`. -/
structure Session where
  email : String
  token : String
  deriving DecidableEq, Repr

/-- An entry of the tutorial catalog. -/
structure Tutorial where
  id : String
  title : String
  tags : List String
  duration : String
  difficulty : String
  content : String
  starter : String
  answerHint : String
  deriving DecidableEq, Repr

/-- What `localStorage.getItem(key)` holds, seen through `JSON.parse`. -/
inductive Item (α : Type) where
  /-- No entry: `getItem` returns `null`. -/
  | absent
  /-- The empty text, or a text that `JSON.parse` rejects. -/
  | malformed
  /-- A text that `JSON.parse` turns into `v`. -/
  | json (v : α)
  deriving DecidableEq, Repr

/-- The four entries named by `STORAGE_KEYS`. -/
structure LocalStorage where
  /-- Entry `STORAGE_KEYS.USERS`. -/
  hyperlearn_users_v1 : Item (JSObject Account)
  /-- Entry `STORAGE_KEYS.SESSION`. -/
  hyperlearn_session_v1 : Item Session
  /-- Entry `STORAGE_KEYS.PROGRESS`. -/
  hyperlearn_progress_v1 : Item (JSObject (JSObject JSON))
  /-- Entry `STORAGE_KEYS.TUTORIALS`. -/
  hyperlearn_tutorials_v1 : Item (List Tutorial)

/-- A `localStorage` with no entry. -/
def LocalStorage.empty : LocalStorage :=
  { hyperlearn_users_v1 := .absent, hyperlearn_session_v1 := .absent,
    hyperlearn_progress_v1 := .absent, hyperlearn_tutorials_v1 := .absent }

/-- Function `readJSON(key, fallback)`: `v ? JSON.parse(v) : fallback`, and `fallback` when parsing throws. -/
def readJSON {α : Type} (item : Item α) (fallback : α) : α :=
  match item with
  | .absent => fallback
  | .malformed => fallback
  | .json v => v

/-- The call `readJSON(key, null)`: the parsed value, or `null` (here `none`). -/
def readJSONOrNull {α : Type} (item : Item α) : Option α :=
  match item with
  | .absent => none
  | .malformed => none
  | .json v => some v

/-- Function `writeJSON(key, value)`: the entry now holds the text of `value`. -/
def writeJSON {α : Type} (value : α) : Item α := .json value

/-! ## Accounts and sessions -/

/-- Function `createUser(email, password, displayName)` at clock reading `now`. The result
is the returned `users[email]` or the message of the thrown `Error`, together
with `localStorage` afterwards. -/
def createUser (sha256 : String → String) (email password displayName : String) (now : Nat)
    (ls : LocalStorage) : Except String (PropertyRead Account) × LocalStorage :=
  let users := readJSON ls.hyperlearn_users_v1 JSObject.empty
  match getProp users email with
  | .own _ => (.error "User already exists", ls)
  | .inherited => (.error "User already exists", ls)
  | .undefined =>
    let passHash := sha256 password
    let users1 := setProp users email
      { email := email, passHash := passHash, displayName := displayName, createdAt := now }
    (.ok (getProp users1 email), { ls with hyperlearn_users_v1 := writeJSON users1 })

/-- Function `signIn(email, password)` at clock reading `now`. The result is the returned
`{ user, session }` or the message of the thrown `Error`, together with
`localStorage` afterwards. An inherited member has no `passHash`, so the
comparison with the digest fails. -/
def signIn (sha256 : String → String) (email password : String) (now : Nat)
    (ls : LocalStorage) : Except String (Account × Session) × LocalStorage :=
  let users := readJSON ls.hyperlearn_users_v1 JSObject.empty
  match getProp users email with
  | .undefined => (.error "No user with that email", ls)
  | .inherited => (.error "Incorrect password", ls)
  | .own u =>
    let passHash := sha256 password
    if passHash ≠ u.passHash then (.error "Incorrect password", ls)
    else
      let session : Session := { email := email, token := sha256 (email ++ toString now) }
      (.ok (u, session), { ls with hyperlearn_session_v1 := writeJSON session })

/-- Function `getSession()`: `readJSON(STORAGE_KEYS.SESSION, null)`. -/
def getSession (ls : LocalStorage) : Option Session :=
  readJSONOrNull ls.hyperlearn_session_v1

/-! ## Catalog and progress -/

/-- The constant `SAMPLE_TUTORIALS`, the catalog written at first launch. -/
def SAMPLE_TUTORIALS : List Tutorial :=
  [ { id := "js-hello",
      title := "JavaScript — Hello World & Console",
      tags := ["javascript", "beginner"],
      duration := "5m",
      difficulty := "Beginner",
      content := "Learn how console.log works. Write a function that returns \"Hello, HyperLearn!\" and call it.",
      starter := "<!doctype html>\n<html>\n<body>\n  <div id=app></div>\n  <script>\n    function sayHello()\x7b\n      // TODO: return a greeting string\n    \x7d\n    const el = document.getElementById(\x27app\x27);\n    el.innerText = sayHello();\n  </script>\n</body>\n</html>",
      answerHint := "Return the string \x27Hello, HyperLearn!\x27 from sayHello()" },
    { id := "css-card",
      title := "CSS — Building a Glassmorphism Card",
      tags := ["css", "design"],
      duration := "10m",
      difficulty := "Beginner",
      content := "Create a floating glass card with backdrop-filter and transitions.",
      starter := "<!doctype html>\n<html>\n<head>\n  <style>\n    body\x7bdisplay:grid;place-items:center;height:100vh;background:linear-gradient(135deg,#0f172a,#060b12);\x7d \n    .card\x7bwidth:320px;padding:24px;border-radius:16px;background:rgba(255,255,255,0.06);backdrop-filter: blur(6px);box-shadow:0 8px 30px rgba(2,6,23,0.7);\x7d \n  </style>\n</head>\n<body>\n  <div class=\"card\">Hello — customize me</div>\n</body>\n</html>",
      answerHint := "Use backdrop-filter: blur() and a translucent background color" },
    { id := "react-counter",
      title := "React — Tiny Counter (hooks)",
      tags := ["react", "beginner"],
      duration := "7m",
      difficulty := "Beginner",
      content := "Build a counter using useState and make it persist to localStorage.",
      starter := "<!doctype html>\n<html>\n<body>\n  <div id=app></div>\n  <script>\n    // This runner doesn\x27t include React by default in the iframe, but you can\n    // emulate a simple counter with vanilla JS for the exercise.\n  </script>\n</body>\n</html>",
      answerHint := "Use useState and effect to sync to localStorage (or simple DOM + localStorage)" } ]

/-- The effect of `App` run at launch, with the catalog to write as a parameter:
`const existing = readJSON(TUTORIALS, null); if (!existing) writeJSON(TUTORIALS, seed)`.
An array read back is truthy, the empty one too. -/
def bootstrapCatalog (seed : List Tutorial) (ls : LocalStorage) : LocalStorage :=
  match readJSONOrNull ls.hyperlearn_tutorials_v1 with
  | some _ => ls
  | none => { ls with hyperlearn_tutorials_v1 := writeJSON seed }

/-- The effect of `App` run at launch: `bootstrapCatalog` with `SAMPLE_TUTORIALS`. -/
def App_useEffect (ls : LocalStorage) : LocalStorage :=
  bootstrapCatalog SAMPLE_TUTORIALS ls

/-- Function `LearningApp.saveProgress(tid, progress)`:
`p[tid] = { ...(p[tid] || {}), ...progress }`, then the whole mapping is written.
A member inherited from `Object.prototype` is truthy and has no own enumerable
property, so spreading it gives the empty record. -/
def saveProgress (tid : String) (progress : JSObject JSON) (ls : LocalStorage) : LocalStorage :=
  let p := readJSON ls.hyperlearn_progress_v1 JSObject.empty
  let previous : JSObject JSON :=
    match getProp p tid with
    | .own r => r
    | .inherited => JSObject.empty
    | .undefined => JSObject.empty
  { ls with hyperlearn_progress_v1 := writeJSON (setProp p tid (spread previous progress)) }

/-- The record persisted for tutorial `tid`, if the persisted mapping has one. -/
def storedProgress (ls : LocalStorage) (tid : String) : Option (JSObject JSON) :=
  readJSON ls.hyperlearn_progress_v1 JSObject.empty tid

/-- The value of field `f` in the record persisted for tutorial `tid`; `none`
when there is no record or the record has no such field. -/
def storedField (ls : LocalStorage) (tid f : String) : Option JSON :=
  match storedProgress ls tid with
  | some r => r f
  | none => none

/-- The calls `saveProgress(tid, u)` for the updates `u` of a sequence, made in order. -/
def saveProgressAll (tid : String) (updates : List (JSObject JSON)) (ls : LocalStorage) :
    LocalStorage :=
  updates.foldl (fun st u => saveProgress tid u st) ls

/-- The final value of field `f` as the specification words it: the value given
by the last update of the sequence that names `f`, or the previous value
`before` if no update names it. -/
def specLastWrite (updates : List (JSObject JSON)) (f : String) (before : Option JSON) :
    Option JSON :=
  match updates.reverse.find? (fun u => (u f).isSome) with
  | some u => u f
  | none => before

/-! ## Tutorial filter -/

/-- The built-in `String.prototype.toLowerCase`, an input of the embedding. What
is fixed of it is its value on a text of ASCII characters: the letters `A` to
`Z` are lowered and every other character is kept. On other texts it may lower
any cased letter, as the built-in does. -/
structure ToLowerCase where
  /-- The text `s.toLowerCase()`. -/
  toLowerCase : String → String
  /-- On a text of ASCII characters only the letters `A` to `Z` change. -/
  ascii : ∀ s : String, (∀ c ∈ s.data, c.toNat < 128) →
    toLowerCase s = ⟨s.data.map Char.toLower⟩

/-- The lowering that changes the letters `A` to `Z` and nothing else; the
built-in is this function on every text of ASCII characters. -/
def asciiToLowerCase : ToLowerCase :=
  { toLowerCase := fun s => ⟨s.data.map Char.toLower⟩
    ascii := fun _ _ => rfl }

/-- The built-in `String.prototype.includes`: `q` occurs in `s` as a contiguous run. -/
def includes (s q : String) : Bool := decide (q.data <:+: s.data)

/-- The built-in `Array.prototype.join` on an array of strings. -/
def join (xs : List String) (sep : String) : String := sep.intercalate xs

/-- The list `LearningApp.filtered`:
`tutorials.filter(t => t.title.toLowerCase().includes(query.toLowerCase())
  || t.tags.join(' ').includes(query.toLowerCase()))`. -/
def filtered (lc : ToLowerCase) (tutorials : List Tutorial) (query : String) : List Tutorial :=
  tutorials.filter (fun t =>
    includes (lc.toLowerCase t.title) (lc.toLowerCase query)
      || includes (join t.tags " ") (lc.toLowerCase query))

/-- The filter as the specification words it: the tutorials, in catalog order,
whose title contains `q` or whose space-joined tag string contains `q`, both
comparisons ignoring letter case. -/
def specFilter (lc : ToLowerCase) (catalog : List Tutorial) (q : String) : List Tutorial :=
  catalog.filter (fun t =>
    includes (lc.toLowerCase t.title) (lc.toLowerCase q)
      || includes (lc.toLowerCase (join t.tags " ")) (lc.toLowerCase q))

/-! ## Runner -/

/-- Outcome of rendering one argument of a `console.log` call as text. -/
inductive Rendered where
  /-- A string is returned. -/
  | text (s : String)
  /-- The value `undefined` is returned. -/
  | undefined
  /-- An error is thrown. -/
  | throws
  deriving DecidableEq, Repr

/-- An argument of a `console.log` call, given by what the built-ins used by
`onLog` do on it. -/
structure JSValue where
  /-- The string `typeof a`. -/
  typeof : String
  /-- The call `JSON.stringify(a)`: a JSON text; or `undefined`, as when `toJSON`
  returns `undefined`; or a thrown error, as on a cyclic object or an object
  that holds a BigInt. -/
  stringify : Rendered
  /-- The call `String(a)`: the string, or `none` when the conversion throws, as
  on a function whose `toString` throws. -/
  toStr : Option String
  deriving DecidableEq, Repr

/-- A `console.log` call: its arguments. -/
abbrev Call := List JSValue

/-- The callback of `args.map` in `onLog`:
`(a) => (typeof a === "object" ? JSON.stringify(a) : String(a))`. -/
def argText (a : JSValue) : Rendered :=
  if a.typeof = "object" then a.stringify
  else
    match a.toStr with
    | some s => .text s
    | none => .throws

/-- The array `args.map(...)` of `onLog`: the callback runs on the arguments in
order and gives a string or `undefined` (here `none`) for each; the result is
`none` when a callback throws. -/
def mapArgText : Call → Option (List (Option String))
  | [] => some []
  | a :: rest =>
    match argText a with
    | .throws => none
    | .text s => (mapArgText rest).map (fun xs => some s :: xs)
    | .undefined => (mapArgText rest).map (fun xs => none :: xs)

/-- The built-in `Array.prototype.join` on an array of strings and `undefined`:
an `undefined` element gives the empty text. -/
def joinElements (xs : List (Option String)) (sep : String) : String :=
  join (xs.map (fun x => x.getD "")) sep

/-- The line `onLog` makes of the arguments of one call:
`args.map((a) => (typeof a === "object" ? JSON.stringify(a) : String(a))).join(" ")`;
`none` when rendering an argument throws. -/
def logLine (args : Call) : Option String :=
  (mapArgText args).map (fun xs => joinElements xs " ")

/-- The state update of `onLog`: `setLogs((s) => [...s, line])`; `none` when the
updater throws, which happens when rendering an argument throws. -/
def onLog (s : List String) (args : Call) : Option (List String) :=
  (logLine args).map (fun line => s ++ [line])

/-- The text of one argument as the specification words it: an argument of type
object is rendered as its JSON text, any other argument as its string form;
`none` when the argument has no such text. -/
def specArgText (a : JSValue) : Option String :=
  if a.typeof = "object" then
    match a.stringify with
    | .text s => some s
    | .undefined => none
    | .throws => none
  else a.toStr

/-- The texts of the arguments of a call, when every argument has one. -/
def specTexts : Call → Option (List String)
  | [] => some []
  | a :: rest =>
    match specArgText a, specTexts rest with
    | some t, some ts => some (t :: ts)
    | _, _ => none

/-- The line of a call as the specification words it: the single-space join of the arguments' texts. -/
def specLine (c : Call) : Option String :=
  (specTexts c).map (fun ts => " ".intercalate ts)

/-- State of the `Runner`: the `logs` state, the `key` of the mounted iframe,
the number of wrappers the effect has put around `console.log` of that iframe,
the number of `onLog` listeners registered on the host `window`, and whether
the component is mounted. -/
structure RunnerState where
  logs : List String
  keyOverride : Nat
  hooks : Nat
  listeners : Nat
  mounted : Bool
  deriving DecidableEq, Repr

/-- The `Runner` after an updater of `setLogs` has thrown: React fails the
render and unmounts the component, so the cleanup removes the listener and the
iframe and the `logs` state are gone. -/
def Runner.unmounted (keyOverride : Nat) : RunnerState :=
  { logs := [], keyOverride := keyOverride, hooks := 0, listeners := 0, mounted := false }

/-- The call `window.dispatchEvent` of one `hyperlearn_iframe_log` event: each
registered listener runs `onLog`. The log is `none` once an updater has thrown. -/
def dispatchEvent : Nat → Option (List String) → Call → Option (List String)
  | 0, s, _ => s
  | n + 1, s, args => dispatchEvent n (s.bind (fun l => onLog l args)) args

/-- A `console.log(...args)` call inside the iframe. Each wrapper dispatches one
event and then calls the function it wrapped; the native `log` at the bottom
does not reach the host. -/
def consoleLog : Nat → Nat → Option (List String) → Call → Option (List String)
  | 0, _, s, _ => s
  | hooks + 1, listeners, s, args => consoleLog hooks listeners (dispatchEvent listeners s args) args

/-- Body of the effect of `Runner` on an iframe whose `console.log` carries
`hooks` wrappers, with `listeners` listeners registered: `setLogs([])`, then the
document is written (its inline scripts run and make the calls `loadCalls`),
then `console.log` is wrapped once more and `onLog` is registered. -/
def Runner.effectBody (keyOverride hooks listeners : Nat) (loadCalls : List Call) : RunnerState :=
  let logs0 : Option (List String) := some []
  match loadCalls.foldl (consoleLog hooks listeners) logs0 with
  | some logs1 =>
    { logs := logs1, keyOverride := keyOverride, hooks := hooks + 1, listeners := listeners + 1,
      mounted := true }
  | none => Runner.unmounted keyOverride

/-- First run of the effect, when `Runner` mounts with a new iframe. -/
def Runner.mount (keyOverride : Nat) (loadCalls : List Call) : RunnerState :=
  Runner.effectBody keyOverride 0 0 loadCalls

/-- Re-run of the effect because `code` or `keyOverride` changed: the cleanup
of the previous run removes its listener; a changed `keyOverride` gives a new
iframe, an unchanged one keeps the iframe and the wrappers on its console. An
unmounted `Runner` has no effect to run. -/
def Runner.rerun (st : RunnerState) (keyOverride : Nat) (loadCalls : List Call) : RunnerState :=
  if st.mounted then
    let listeners := st.listeners - 1
    let hooks := if keyOverride = st.keyOverride then st.hooks else 0
    Runner.effectBody keyOverride hooks listeners loadCalls
  else st

/-- A `console.log` call made in the mounted iframe after the effect has run
(from a timer or an event handler of the document). -/
def Runner.log (st : RunnerState) (args : Call) : RunnerState :=
  if st.mounted then
    match consoleLog st.hooks st.listeners (some st.logs) args with
    | some logs1 => { st with logs := logs1 }
    | none => Runner.unmounted st.keyOverride
  else st

/-- What happens to a mounted `Runner`. -/
inductive RunnerEvent where
  /-- The effect re-runs for the props `code` (given by the calls its inline scripts make) and `keyOverride`. -/
  | run (keyOverride : Nat) (loadCalls : List Call)
  /-- A script of the mounted iframe calls `console.log`. -/
  | log (args : Call)
  deriving DecidableEq, Repr

/-- One step of a mounted `Runner`. -/
def Runner.step (st : RunnerState) : RunnerEvent → RunnerState
  | .run keyOverride loadCalls => Runner.rerun st keyOverride loadCalls
  | .log args => Runner.log st args

/-- A trace of events applied to a mounted `Runner`. -/
def Runner.steps (st : RunnerState) (events : List RunnerEvent) : RunnerState :=
  events.foldl Runner.step st

/-! ## Property reads and writes -/

theorem getProp_of_own {α : Type} (o : JSObject α) (k : String) (v : α) (h : o k = some v) :
    getProp o k = .own v := by
  simp [getProp, h]

theorem getProp_undefined_iff {α : Type} (o : JSObject α) (k : String) :
    getProp o k = .undefined ↔ o k = none ∧ k ∉ objectPrototypeKeys := by
  unfold getProp
  cases h : o k with
  | none => by_cases hk : k ∈ objectPrototypeKeys <;> simp [hk]
  | some v => simp

theorem getProp_of_inherited {α : Type} (o : JSObject α) (k : String) (h : o k = none)
    (hk : k ∈ objectPrototypeKeys) : getProp o k = .inherited := by
  simp [getProp, h, hk]

theorem proto_mem_objectPrototypeKeys : "__proto__" ∈ objectPrototypeKeys := by decide

theorem setProp_of_ne_proto {α : Type} (o : JSObject α) (k : String) (v : α)
    (hk : k ≠ "__proto__") : setProp o k v = Function.update o k (some v) := by
  simp [setProp, hk]

theorem setProp_of_own {α : Type} (o : JSObject α) (k : String) (v w : α)
    (h : o k = some w) : setProp o k v = Function.update o k (some v) := by
  simp [setProp, h]

theorem setProp_proto_of_none {α : Type} (o : JSObject α) (v : α)
    (h : o "__proto__" = none) : setProp o "__proto__" v = o := by
  simp [setProp, h]

theorem setProp_other {α : Type} (o : JSObject α) (k t : String) (v : α) (ht : t ≠ k) :
    setProp o k v t = o t := by
  unfold setProp
  split
  · rfl
  · exact Function.update_noteq ht _ _

theorem spread_apply {α : Type} (a b : JSObject α) (f : String) :
    spread a b f = (b f).orElse (fun _ => a f) := by
  unfold spread
  cases b f <;> rfl

/-! ## Accounts and sessions -/

/-- What `createUser` does for an identity that has no own entry and names no
member of `Object.prototype`: the account is added and returned. -/
theorem createUser_of_fresh (sha256 : String → String) (ls : LocalStorage)
    (id secret name : String) (now : Nat)
    (hfree : readJSON ls.hyperlearn_users_v1 JSObject.empty id = none)
    (hname : id ∉ objectPrototypeKeys) :
    createUser sha256 id secret name now ls
      = (.ok (.own { email := id, passHash := sha256 secret, displayName := name, createdAt := now }),
          { ls with hyperlearn_users_v1 := Item.json (Function.update
              (readJSON ls.hyperlearn_users_v1 JSObject.empty) id
              (some { email := id, passHash := sha256 secret, displayName := name,
                      createdAt := now })) }) := by
  have hg : getProp (readJSON ls.hyperlearn_users_v1 JSObject.empty) id = .undefined :=
    (getProp_undefined_iff _ _).2 ⟨hfree, hname⟩
  have hne : id ≠ "__proto__" := fun h => hname (h ▸ proto_mem_objectPrototypeKeys)
  simp only [createUser, hg, setProp_of_ne_proto _ _ _ hne, writeJSON]
  rw [getProp_of_own _ _ _ (Function.update_same _ _ _)]

/-- A successful `createUser` was called on an identity with no own entry that
names no member of `Object.prototype`. -/
theorem createUser_ok_inv (sha256 : String → String) (ls ls1 : LocalStorage)
    (id secret name : String) (now : Nat) (r : PropertyRead Account)
    (hcreate : createUser sha256 id secret name now ls = (.ok r, ls1)) :
    readJSON ls.hyperlearn_users_v1 JSObject.empty id = none ∧ id ∉ objectPrototypeKeys := by
  unfold createUser at hcreate
  cases hg : getProp (readJSON ls.hyperlearn_users_v1 JSObject.empty) id with
  | own v => simp [hg] at hcreate
  | inherited => simp [hg] at hcreate
  | undefined => exact (getProp_undefined_iff _ _).1 hg

/-- What `signIn` does for an identity with an own entry. -/
theorem signIn_of_own (sha256 : String → String) (ls : LocalStorage)
    (id secret : String) (now : Nat) (u : Account)
    (h : readJSON ls.hyperlearn_users_v1 JSObject.empty id = some u) :
    signIn sha256 id secret now ls
      = if sha256 secret ≠ u.passHash then (.error "Incorrect password", ls)
        else (.ok (u, { email := id, token := sha256 (id ++ toString now) }),
              { ls with hyperlearn_session_v1 :=
                  Item.json { email := id, token := sha256 (id ++ toString now) } }) := by
  simp only [signIn, getProp_of_own _ _ _ h, writeJSON]

/-- Registration followed by sign-in, for an identity that names no member of
`Object.prototype` and has no account yet: both succeed, and the account
returned by `signIn` is the one `createUser` stored, with `email` the identity. -/
theorem createUser_then_signIn (sha256 : String → String) (ls : LocalStorage)
    (id secret name : String) (now now1 : Nat)
    (hfree : readJSON ls.hyperlearn_users_v1 JSObject.empty id = none)
    (hname : id ∉ objectPrototypeKeys) :
    (createUser sha256 id secret name now ls).1
        = .ok (.own { email := id, passHash := sha256 secret, displayName := name, createdAt := now }) ∧
      (signIn sha256 id secret now1 (createUser sha256 id secret name now ls).2).1
        = .ok ({ email := id, passHash := sha256 secret, displayName := name, createdAt := now },
               { email := id, token := sha256 (id ++ toString now1) }) := by
  rw [createUser_of_fresh sha256 ls id secret name now hfree hname]
  refine ⟨rfl, ?_⟩
  rw [signIn_of_own sha256 _ id secret now1
    { email := id, passHash := sha256 secret, displayName := name, createdAt := now }
    (by simp [readJSON])]
  simp

/-- C1, the failing input: no account is stored, yet registering the identity
`constructor` is refused as a duplicate, because `users[email]` finds the member
that the empty object inherits from `Object.prototype`. -/
theorem createUser_inherited_name_refused (sha256 : String → String) (secret name : String)
    (now : Nat) :
    readJSON LocalStorage.empty.hyperlearn_users_v1 JSObject.empty "constructor" = none ∧
      createUser sha256 "constructor" secret name now LocalStorage.empty
        = (.error "User already exists", LocalStorage.empty) :=
  ⟨rfl, rfl⟩

/-- C2: once `createUser(id, secret, name)` has succeeded, and with a digest
that gives different values on different inputs, `signIn(id, wrongSecret)` for
every `wrongSecret` other than `secret` throws "Incorrect password" and writes
nothing. -/
theorem signIn_wrong_secret_refused (sha256 : String → String) (ls ls1 : LocalStorage)
    (id secret name wrongSecret : String) (now now1 : Nat) (r : PropertyRead Account)
    (hinj : Function.Injective sha256)
    (hcreate : createUser sha256 id secret name now ls = (.ok r, ls1))
    (hne : wrongSecret ≠ secret) :
    signIn sha256 id wrongSecret now1 ls1 = (.error "Incorrect password", ls1) := by
  obtain ⟨hfree, hname⟩ := createUser_ok_inv sha256 ls ls1 id secret name now r hcreate
  rw [createUser_of_fresh sha256 ls id secret name now hfree hname] at hcreate
  have hls := (congrArg Prod.snd hcreate).symm
  subst hls
  rw [signIn_of_own sha256 _ id wrongSecret now1
    { email := id, passHash := sha256 secret, displayName := name, createdAt := now }
    (by simp [readJSON])]
  have hd : sha256 wrongSecret ≠ sha256 secret := fun h => hne (hinj h)
  simp [hd]

/-- Witness of C2: the digest is the identity, the account of `ann@example.com`
is created in an empty store, and the secret `guess` is tried instead of `pw`. -/
theorem signIn_wrong_secret_refused_witness :
    Function.Injective (fun s : String => s) ∧ "guess" ≠ "pw" ∧
      signIn (fun s => s) "ann@example.com" "guess" 2
          (createUser (fun s => s) "ann@example.com" "pw" "Ann" 1 LocalStorage.empty).2
        = (.error "Incorrect password",
            (createUser (fun s => s) "ann@example.com" "pw" "Ann" 1 LocalStorage.empty).2) :=
  ⟨fun _ _ h => h, by decide,
    signIn_wrong_secret_refused (fun s => s) LocalStorage.empty _ "ann@example.com" "pw" "Ann"
      "guess" 1 2 _ (fun _ _ h => h) rfl (by decide)⟩

/-- C3: when the persisted account store already holds an account for `id`,
`createUser(id, secret, name)` throws "User already exists" and `localStorage`
is what it was, so the account held for `id` is the same as before. -/
theorem createUser_duplicate_refused (sha256 : String → String) (ls : LocalStorage)
    (id secret name : String) (now : Nat) (acct : Account)
    (h : readJSON ls.hyperlearn_users_v1 JSObject.empty id = some acct) :
    createUser sha256 id secret name now ls = (.error "User already exists", ls) ∧
      readJSON (createUser sha256 id secret name now ls).2.hyperlearn_users_v1 JSObject.empty id
        = some acct := by
  have hg := getProp_of_own _ _ _ h
  have h1 : createUser sha256 id secret name now ls = (.error "User already exists", ls) := by
    simp only [createUser, hg]
  exact ⟨h1, by rw [h1]; exact h⟩

/-- Witness of C3: a store holding one account, for `ann@example.com`;
registering that identity again with another secret and name is refused. -/
theorem createUser_duplicate_refused_witness :
    createUser (fun s => s) "ann@example.com" "other" "Bob" 9
        (createUser (fun s => s) "ann@example.com" "pw" "Ann" 1 LocalStorage.empty).2
      = (.error "User already exists",
          (createUser (fun s => s) "ann@example.com" "pw" "Ann" 1 LocalStorage.empty).2) :=
  (createUser_duplicate_refused (fun s => s)
    (createUser (fun s => s) "ann@example.com" "pw" "Ann" 1 LocalStorage.empty).2
    "ann@example.com" "other" "Bob" 9
    { email := "ann@example.com", passHash := "pw", displayName := "Ann", createdAt := 1 }
    (by simp [createUser, readJSON, writeJSON, getProp, setProp, JSObject.empty, LocalStorage.empty,
      objectPrototypeKeys])).1

/-- C9: for two identities with accounts in the store and their correct
secrets, `signIn` as `idA` and then as `idB` both succeed; afterwards
`getSession()` returns the session of the second sign-in, with email `idB` and
the second token, and the persisted session entry is that record alone. -/
theorem signIn_twice_session (sha256 : String → String) (ls : LocalStorage)
    (idA idB secretA secretB : String) (nowA nowB : Nat) (uA uB : Account)
    (hA : readJSON ls.hyperlearn_users_v1 JSObject.empty idA = some uA)
    (hpA : uA.passHash = sha256 secretA)
    (hB : readJSON ls.hyperlearn_users_v1 JSObject.empty idB = some uB)
    (hpB : uB.passHash = sha256 secretB) :
    (signIn sha256 idA secretA nowA ls).1
        = .ok (uA, { email := idA, token := sha256 (idA ++ toString nowA) }) ∧
      (signIn sha256 idB secretB nowB (signIn sha256 idA secretA nowA ls).2).1
        = .ok (uB, { email := idB, token := sha256 (idB ++ toString nowB) }) ∧
      getSession (signIn sha256 idB secretB nowB (signIn sha256 idA secretA nowA ls).2).2
        = some { email := idB, token := sha256 (idB ++ toString nowB) } ∧
      (signIn sha256 idB secretB nowB (signIn sha256 idA secretA nowA ls).2).2.hyperlearn_session_v1
        = Item.json { email := idB, token := sha256 (idB ++ toString nowB) } := by
  have h1 := signIn_of_own sha256 ls idA secretA nowA uA hA
  simp only [hpA, ne_eq, not_true_eq_false, if_false] at h1
  have h2 := signIn_of_own sha256 (signIn sha256 idA secretA nowA ls).2 idB secretB nowB uB
    (by rw [h1]; exact hB)
  simp only [hpB, ne_eq, not_true_eq_false, if_false] at h2
  rw [h2, h1]
  simp [getSession, readJSONOrNull]

/-- Witness of C9: accounts for `ann@example.com` and `bob@example.com`, created
by `createUser`; Ann signs in, then Bob. -/
theorem signIn_twice_session_witness :
    getSession (signIn (fun s => s) "bob@example.com" "pwB" 4
        (signIn (fun s => s) "ann@example.com" "pwA" 3
          (createUser (fun s => s) "bob@example.com" "pwB" "Bob" 2
            (createUser (fun s => s) "ann@example.com" "pwA" "Ann" 1 LocalStorage.empty).2).2).2).2
      = some { email := "bob@example.com", token := "bob@example.com" ++ toString 4 } :=
  (signIn_twice_session (fun s => s)
    (createUser (fun s => s) "bob@example.com" "pwB" "Bob" 2
      (createUser (fun s => s) "ann@example.com" "pwA" "Ann" 1 LocalStorage.empty).2).2
    "ann@example.com" "bob@example.com" "pwA" "pwB" 3 4
    { email := "ann@example.com", passHash := "pwA", displayName := "Ann", createdAt := 1 }
    { email := "bob@example.com", passHash := "pwB", displayName := "Bob", createdAt := 2 }
    (by simp [createUser, readJSON, writeJSON, getProp, setProp, JSObject.empty, LocalStorage.empty,
      objectPrototypeKeys, Function.update])
    rfl
    (by simp [createUser, readJSON, writeJSON, getProp, setProp, JSObject.empty, LocalStorage.empty,
      objectPrototypeKeys, Function.update])
    rfl).2.2.1

/-! ## Progress records -/

/-- The record persisted for `t` after `saveProgress(tid, progress)` is the entry
of the updated mapping. -/
theorem storedProgress_saveProgress (ls : LocalStorage) (tid t : String)
    (progress : JSObject JSON) :
    storedProgress (saveProgress tid progress ls) t
      = setProp (readJSON ls.hyperlearn_progress_v1 JSObject.empty) tid
          (spread
            (match getProp (readJSON ls.hyperlearn_progress_v1 JSObject.empty) tid with
              | .own r => r
              | .inherited => JSObject.empty
              | .undefined => JSObject.empty)
            progress) t := by
  simp only [storedProgress, saveProgress, writeJSON, readJSON]

/-- The records of the tutorial ids other than `tid` are unchanged by `saveProgress(tid, progress)`. -/
theorem saveProgress_other (ls : LocalStorage) (tid t : String) (progress : JSObject JSON)
    (ht : t ≠ tid) :
    storedProgress (saveProgress tid progress ls) t = storedProgress ls t := by
  rw [storedProgress_saveProgress, setProp_other _ _ _ _ ht]
  rfl

/-- Field-level merge: for a tutorial id other than `__proto__`, or one that has
a record already, the record stored after `saveProgress(tid, progress)` is the
previous record (the empty one if there was none) overwritten and extended by
the fields of `progress`. -/
theorem saveProgress_merge (ls : LocalStorage) (tid : String) (progress : JSObject JSON)
    (h : tid ≠ "__proto__" ∨ (storedProgress ls tid).isSome) :
    storedProgress (saveProgress tid progress ls) tid
      = some (spread ((storedProgress ls tid).getD JSObject.empty) progress) := by
  rw [storedProgress_saveProgress]
  have hupd : ∀ v : JSObject JSON,
      setProp (readJSON ls.hyperlearn_progress_v1 JSObject.empty) tid v
        = Function.update (readJSON ls.hyperlearn_progress_v1 JSObject.empty) tid (some v) := by
    intro v
    rcases h with h | h
    · exact setProp_of_ne_proto _ _ _ h
    · obtain ⟨w, hw⟩ := Option.isSome_iff_exists.1 h
      exact setProp_of_own _ _ _ w hw
  rw [hupd, Function.update_same]
  unfold storedProgress getProp
  cases hp : readJSON ls.hyperlearn_progress_v1 JSObject.empty tid with
  | some old => rfl
  | none => by_cases hk : tid ∈ objectPrototypeKeys <;> simp [hk]

/-- The example of the specification on the tutorial `js-hello`: after
`saveProgress(t, {notes:"a"})` and `saveProgress(t, {other:"b"})` the record of
`t` has `notes` equal to `"a"`, `other` equal to `"b"` and no other field. -/
theorem saveProgress_notes_then_other :
    ∃ r, storedProgress
        (saveProgress "js-hello" (fun f => if f = "other" then some (JSON.string "b") else none)
          (saveProgress "js-hello" (fun f => if f = "notes" then some (JSON.string "a") else none)
            LocalStorage.empty)) "js-hello" = some r ∧
      ∀ f, r f = if f = "notes" then some (JSON.string "a")
        else if f = "other" then some (JSON.string "b") else none := by
  refine ⟨_, saveProgress_merge _ "js-hello" _ (Or.inl (by decide)), ?_⟩
  intro f
  rw [saveProgress_merge _ "js-hello" _ (Or.inl (by decide))]
  by_cases h1 : f = "notes"
  · subst h1
    simp [spread, storedProgress, readJSON, LocalStorage.empty, JSObject.empty]
  · by_cases h2 : f = "other" <;>
      simp [spread, storedProgress, readJSON, LocalStorage.empty, JSObject.empty, h1, h2]

/-- C7, the failing input: `saveProgress("__proto__", progress)` on a store with
no progress entry persists no record for `__proto__`, whatever `progress` is:
the assignment `p["__proto__"] = ...` sets the prototype of `p` and adds no own
property, so the written mapping does not hold the update. -/
theorem saveProgress_proto_not_stored (progress : JSObject JSON) :
    storedProgress (saveProgress "__proto__" progress LocalStorage.empty) "__proto__" = none :=
  rfl

/-! ## Catalog bootstrap -/

/-- C8: from a store whose catalog entry gives no catalog, bootstrapping with
`seed1` persists `seed1`, and bootstrapping again with `seed2` changes nothing;
in general the bootstrap step leaves a store with a persisted catalog as it is. -/
theorem bootstrapCatalog_once (ls : LocalStorage) (seed1 seed2 : List Tutorial)
    (h : readJSONOrNull ls.hyperlearn_tutorials_v1 = none) :
    (bootstrapCatalog seed1 ls).hyperlearn_tutorials_v1 = Item.json seed1 ∧
      (bootstrapCatalog seed2 (bootstrapCatalog seed1 ls)).hyperlearn_tutorials_v1
        = Item.json seed1 ∧
      bootstrapCatalog seed2 (bootstrapCatalog seed1 ls) = bootstrapCatalog seed1 ls ∧
      ∀ (ls0 : LocalStorage) (catalog seed : List Tutorial),
        ls0.hyperlearn_tutorials_v1 = Item.json catalog → bootstrapCatalog seed ls0 = ls0 := by
  have keep : ∀ (ls0 : LocalStorage) (catalog seed : List Tutorial),
      ls0.hyperlearn_tutorials_v1 = Item.json catalog → bootstrapCatalog seed ls0 = ls0 := by
    intro ls0 catalog seed h0
    simp [bootstrapCatalog, h0, readJSONOrNull]
  have first : (bootstrapCatalog seed1 ls).hyperlearn_tutorials_v1 = Item.json seed1 := by
    simp [bootstrapCatalog, h, writeJSON]
  have second := keep (bootstrapCatalog seed1 ls) seed1 seed2 first
  exact ⟨first, by rw [second]; exact first, second, keep⟩

/-- Witness of C8: the empty `localStorage`, bootstrapped with `SAMPLE_TUTORIALS`
and then with the empty catalog. -/
theorem bootstrapCatalog_once_witness :
    readJSONOrNull LocalStorage.empty.hyperlearn_tutorials_v1 = none ∧
      (bootstrapCatalog [] (bootstrapCatalog SAMPLE_TUTORIALS LocalStorage.empty)).hyperlearn_tutorials_v1
        = Item.json SAMPLE_TUTORIALS :=
  ⟨rfl, (bootstrapCatalog_once LocalStorage.empty SAMPLE_TUTORIALS [] rfl).2.1⟩

/-! ## Tutorial filter -/

theorem toLowerCase_empty (lc : ToLowerCase) : lc.toLowerCase "" = "" := by
  rw [lc.ascii "" (by simp)]
  rfl

theorem includes_empty (lc : ToLowerCase) (s : String) :
    includes s (lc.toLowerCase "") = true := by
  rw [toLowerCase_empty]
  simp [includes]

/-- With the empty filter string the filtered list is the whole catalog. -/
theorem filtered_empty_query (lc : ToLowerCase) (tutorials : List Tutorial) :
    filtered lc tutorials "" = tutorials := by
  unfold filtered
  rw [List.filter_eq_self]
  intro t _
  simp [includes_empty]

/-- The filtered list keeps catalog order: it is a sublist of the catalog. -/
theorem filtered_sublist (lc : ToLowerCase) (tutorials : List Tutorial) (query : String) :
    List.Sublist (filtered lc tutorials query) tutorials :=
  List.filter_sublist _

/-- On a catalog whose tags hold no upper-case letter the filter is the one the specification words. -/
theorem filtered_eq_specFilter_of_lower_tags (lc : ToLowerCase) (tutorials : List Tutorial)
    (query : String)
    (h : ∀ t ∈ tutorials, lc.toLowerCase (join t.tags " ") = join t.tags " ") :
    filtered lc tutorials query = specFilter lc tutorials query := by
  unfold filtered specFilter
  apply List.filter_congr
  intro t ht
  rw [h t ht]

/-- C10, the failing input: a catalog of one tutorial tagged `CSS`, filtered by
`CSS`. The tag string contains the filter string, so the filter worded by the
specification keeps the tutorial; `filtered` lower-cases the filter string and
the title but not the tags, and returns the empty list. All the texts are
ASCII, so this holds whatever `toLowerCase` does on other texts. -/
theorem filtered_misses_upper_case_tag (lc : ToLowerCase) :
    filtered lc [{ id := "layout", title := "Page layout", tags := ["CSS"], duration := "5m",
                   difficulty := "Beginner", content := "", starter := "", answerHint := "" }] "CSS"
        = [] ∧
      specFilter lc [{ id := "layout", title := "Page layout", tags := ["CSS"], duration := "5m",
                       difficulty := "Beginner", content := "", starter := "", answerHint := "" }] "CSS"
        = [{ id := "layout", title := "Page layout", tags := ["CSS"], duration := "5m",
             difficulty := "Beginner", content := "", starter := "", answerHint := "" }] := by
  have hq : lc.toLowerCase "CSS" = "css" := by
    rw [lc.ascii "CSS" (by decide)]
    decide
  have ht : lc.toLowerCase "Page layout" = "page layout" := by
    rw [lc.ascii "Page layout" (by decide)]
    decide
  have hj : join ["CSS"] " " = "CSS" := by decide
  constructor
  · simp only [filtered, List.filter, hq, ht, hj]
    decide
  · simp only [specFilter, List.filter, hq, ht, hj]
    decide

/-! ## Runner -/

/-- When every argument of a call has a text, `args.map(...)` gives those texts. -/
theorem mapArgText_of_specTexts (c : Call) (ts : List String) (h : specTexts c = some ts) :
    mapArgText c = some (ts.map some) := by
  induction c generalizing ts with
  | nil =>
    simp only [specTexts, Option.some.injEq] at h
    subst h
    rfl
  | cons a rest ih =>
    unfold specTexts at h
    cases ha : specArgText a with
    | none => simp [ha] at h
    | some t =>
      cases hr : specTexts rest with
      | none => simp [ha, hr] at h
      | some ts1 =>
        simp only [ha, hr, Option.some.injEq] at h
        subst h
        have hat : argText a = Rendered.text t := by
          unfold specArgText at ha
          unfold argText
          by_cases hobj : a.typeof = "object"
          · simp only [hobj, if_true] at ha ⊢
            cases hs : a.stringify with
            | text s => simp [hs] at ha; rw [ha]
            | undefined => simp [hs] at ha
            | throws => simp [hs] at ha
          · simp only [hobj, if_false] at ha ⊢
            rw [ha]
        simp only [mapArgText, hat, ih ts1 hr, Option.map_some', List.map_cons]

/-- When every argument of a call has a text, the line `onLog` makes is the line the specification words. -/
theorem logLine_of_specLine (c : Call) (line : String) (h : specLine c = some line) :
    logLine c = some line := by
  unfold specLine at h
  cases hts : specTexts c with
  | none => simp [hts] at h
  | some ts =>
    simp only [hts, Option.map_some', Option.some.injEq] at h
    subst h
    have hid : ∀ xs : List String,
        List.map (fun x : Option String => x.getD "") (List.map some xs) = xs := by
      intro xs
      induction xs with
      | nil => rfl
      | cons x rest ih => simp [ih]
    simp only [logLine, mapArgText_of_specTexts c ts hts, Option.map_some', joinElements, join,
      hid]

theorem onLog_of_specLine (s : List String) (c : Call) (line : String)
    (h : specLine c = some line) : onLog s c = some (s ++ [line]) := by
  simp [onLog, logLine_of_specLine c line h]

/-- Calls that all have a line, delivered to `onLog` in order, append their lines in that order. -/
theorem foldlM_onLog (calls : List Call) (lines s : List String)
    (h : calls.map specLine = lines.map some) :
    calls.foldlM onLog s = some (s ++ lines) := by
  induction calls generalizing lines s with
  | nil =>
    cases lines with
    | nil => simp
    | cons l ls => simp at h
  | cons c cs ih =>
    cases lines with
    | nil => simp at h
    | cons l ls =>
      simp only [List.map_cons, List.cons.injEq] at h
      rw [List.foldlM_cons, onLog_of_specLine s c l h.1]
      simp only [Option.bind_eq_bind, Option.some_bind]
      rw [ih ls (s ++ [l]) h.2]
      simp

/-- With no listener registered a `console.log` call leaves the log as it is, whatever wraps it. -/
theorem consoleLog_no_listener (hooks : Nat) (s : Option (List String)) (args : Call) :
    consoleLog hooks 0 s args = s := by
  induction hooks generalizing s with
  | zero => rfl
  | succ n ih => simp [consoleLog, dispatchEvent, ih]

theorem foldl_consoleLog_no_listener (hooks : Nat) (s : Option (List String))
    (calls : List Call) : calls.foldl (consoleLog hooks 0) s = s := by
  induction calls generalizing s with
  | nil => rfl
  | cons c cs ih => simp [List.foldl_cons, consoleLog_no_listener, ih]

/-- The unwrapped `console.log` of a new iframe does not reach the host. -/
theorem foldl_consoleLog_no_hook (listeners : Nat) (s : Option (List String))
    (calls : List Call) : calls.foldl (consoleLog 0 listeners) s = s := by
  induction calls generalizing s with
  | nil => rfl
  | cons c cs ih => simp [List.foldl_cons, consoleLog, ih]

/-- The first run leaves a mounted `Runner` with the empty log, one wrapper and one listener. -/
theorem Runner_mount_eq (keyOverride : Nat) (loadCalls : List Call) :
    Runner.mount keyOverride loadCalls
      = { logs := [], keyOverride := keyOverride, hooks := 1, listeners := 1, mounted := true } := by
  simp [Runner.mount, Runner.effectBody, foldl_consoleLog_no_hook]

/-- After any event a `Runner` is either mounted with one listener registered,
or unmounted with no log line. -/
theorem Runner_step_inv (st : RunnerState) (e : RunnerEvent)
    (h : (st.mounted = true ∧ st.listeners = 1) ∨ (st.mounted = false ∧ st.logs = [])) :
    ((Runner.step st e).mounted = true ∧ (Runner.step st e).listeners = 1) ∨
      ((Runner.step st e).mounted = false ∧ (Runner.step st e).logs = []) := by
  rcases h with ⟨hm, hl⟩ | ⟨hm, hl⟩
  · cases e with
    | run k calls =>
      left
      simp [Runner.step, Runner.rerun, Runner.effectBody, hm, hl, foldl_consoleLog_no_listener]
    | log args =>
      simp only [Runner.step, Runner.log, hm, if_true]
      split
      · left
        exact ⟨rfl, hl⟩
      · right
        exact ⟨rfl, rfl⟩
  · right
    cases e with
    | run k calls => simp [Runner.step, Runner.rerun, hm, hl]
    | log args => simp [Runner.step, Runner.log, hm, hl]

theorem Runner_steps_inv (st : RunnerState) (events : List RunnerEvent)
    (h : (st.mounted = true ∧ st.listeners = 1) ∨ (st.mounted = false ∧ st.logs = [])) :
    ((Runner.steps st events).mounted = true ∧ (Runner.steps st events).listeners = 1) ∨
      ((Runner.steps st events).mounted = false ∧ (Runner.steps st events).logs = []) := by
  unfold Runner.steps
  induction events generalizing st with
  | nil => exact h
  | cons e es ih =>
    rw [List.foldl_cons]
    exact ih _ (Runner_step_inv st e h)

theorem Runner_steps_append (st : RunnerState) (es fs : List RunnerEvent) :
    Runner.steps st (es ++ fs) = Runner.steps (Runner.steps st es) fs := by
  simp [Runner.steps, List.foldl_append]

/-- A re-run of the effect leaves no line in the log, whatever calls the document makes while it loads. -/
theorem Runner_rerun_logs (st : RunnerState) (keyOverride : Nat) (loadCalls : List Call)
    (h : (st.mounted = true ∧ st.listeners = 1) ∨ (st.mounted = false ∧ st.logs = [])) :
    (Runner.rerun st keyOverride loadCalls).logs = [] := by
  rcases h with ⟨hm, hl⟩ | ⟨hm, hl⟩
  · simp [Runner.rerun, Runner.effectBody, hm, hl, foldl_consoleLog_no_listener]
  · simp [Runner.rerun, hm, hl]

/-- On a mounted `Runner` with one wrapper and one listener, `console.log` calls
that all have a line append their lines once each, in call order. -/
theorem Runner_steps_logs (st : RunnerState) (calls : List Call) (lines : List String)
    (hm : st.mounted = true) (hh : st.hooks = 1) (hl : st.listeners = 1)
    (h : calls.map specLine = lines.map some) :
    Runner.steps st (calls.map RunnerEvent.log) = { st with logs := st.logs ++ lines } := by
  induction calls generalizing lines st with
  | nil =>
    cases lines with
    | nil => simp [Runner.steps]
    | cons l ls => simp at h
  | cons c cs ih =>
    cases lines with
    | nil => simp at h
    | cons l ls =>
      simp only [List.map_cons, List.cons.injEq] at h
      have hstep : Runner.steps st ((c :: cs).map RunnerEvent.log)
          = Runner.steps (Runner.log st c) (cs.map RunnerEvent.log) := rfl
      have hlog : Runner.log st c = { st with logs := st.logs ++ [l] } := by
        simp [Runner.log, hm, hh, hl, consoleLog, dispatchEvent, onLog_of_specLine _ c l h.1]
      rw [hstep, hlog, ih { st with logs := st.logs ++ [l] } ls hm hh hl h.2]
      simp

/-- A re-run with a changed `keyOverride` on a mounted `Runner` with one
listener gives a new iframe: the empty log, one wrapper and one listener, as
after the first run. -/
theorem Runner_rerun_new_key (st : RunnerState) (keyOverride : Nat) (loadCalls : List Call)
    (hm : st.mounted = true) (hl : st.listeners = 1) (hk : keyOverride ≠ st.keyOverride) :
    Runner.rerun st keyOverride loadCalls
      = { logs := [], keyOverride := keyOverride, hooks := 1, listeners := 1, mounted := true } := by
  simp [Runner.rerun, Runner.effectBody, hm, hl, hk, foldl_consoleLog_no_hook]

/-- C4, the failing input: the calls `console.log(1+1)` and `console.log('ok')`
made while the document loads would give the lines "2" and "ok", but the log
after the run is empty. The effect writes the document, whose inline scripts run
at once, before it wraps `console.log` and registers `onLog`; this holds for
every document, on the first run and on every later run of a mounted `Runner`. -/
theorem Runner_load_calls_not_captured (keyOverride : Nat) :
    List.map specLine
        [[{ typeof := "number", stringify := Rendered.text "2", toStr := some "2" }],
         [{ typeof := "string", stringify := Rendered.text "\"ok\"", toStr := some "ok" }]]
        = [some "2", some "ok"] ∧
      (Runner.mount keyOverride
        [[{ typeof := "number", stringify := Rendered.text "2", toStr := some "2" }],
         [{ typeof := "string", stringify := Rendered.text "\"ok\"", toStr := some "ok" }]]).logs
        = [] ∧
      (∀ loadCalls : List Call, (Runner.mount keyOverride loadCalls).logs = []) ∧
      ∀ (key0 key1 : Nat) (calls0 loadCalls : List Call) (events : List RunnerEvent),
        (Runner.steps (Runner.mount key0 calls0)
          (events ++ [RunnerEvent.run key1 loadCalls])).logs = [] := by
  refine ⟨by decide, rfl, ?_, ?_⟩
  · intro loadCalls
    rw [Runner_mount_eq]
  · intro key0 key1 calls0 loadCalls events
    rw [Runner_steps_append]
    exact Runner_rerun_logs _ key1 loadCalls
      (Runner_steps_inv _ events (Or.inl (by rw [Runner_mount_eq]; exact ⟨rfl, rfl⟩)))

/-- C5, the failing input: document A is run on the iframe with key 7 and makes
no call while loading; the code changes to document B and the effect re-runs
with the same key, so on the same iframe, whose `console.log` is then wrapped
twice. One call `console.log("B")` by a script of B puts the line in the log
twice. If a timer left by A calls `console.log("A")` before that, the log shown
for B holds that line too, since the event names no run. -/
theorem Runner_rerun_same_iframe_log :
    (Runner.steps (Runner.mount 7 [])
      [RunnerEvent.run 7 [],
       RunnerEvent.log [{ typeof := "string", stringify := Rendered.text "\"B\"",
                          toStr := some "B" }]]).logs
      = ["B", "B"] ∧
    (Runner.steps (Runner.mount 7 [])
      [RunnerEvent.run 7 [],
       RunnerEvent.log [{ typeof := "string", stringify := Rendered.text "\"A\"",
                          toStr := some "A" }],
       RunnerEvent.log [{ typeof := "string", stringify := Rendered.text "\"B\"",
                          toStr := some "B" }]]).logs
      = ["A", "A", "B", "B"] := by
  constructor <;> decide

/-- C6, as stated, fails on a call with an argument of type object on which
`JSON.stringify` throws (a cyclic object): the argument has no JSON text, the
updater of `onLog` throws, and after the call is delivered the log holds no
line and the `Runner` is unmounted. So it is not the case that every sequence
of calls leaves one line per call in the log. -/
theorem onLog_throwing_argument_no_line :
    specLine [{ typeof := "object", stringify := Rendered.throws,
                toStr := some "[object Object]" }] = none ∧
      onLog [] [{ typeof := "object", stringify := Rendered.throws,
                  toStr := some "[object Object]" }] = none ∧
      (Runner.steps (Runner.mount 7 [])
        [RunnerEvent.log [{ typeof := "object", stringify := Rendered.throws,
                            toStr := some "[object Object]" }]]).logs = [] ∧
      (Runner.steps (Runner.mount 7 [])
        [RunnerEvent.log [{ typeof := "object", stringify := Rendered.throws,
                            toStr := some "[object Object]" }]]).mounted = false ∧
      ¬ ∀ calls : List Call, ∃ lines : List String, lines.length = calls.length ∧
          (Runner.steps (Runner.mount 7 []) (calls.map RunnerEvent.log)).logs = lines := by
  refine ⟨by decide, by decide, by decide, by decide, ?_⟩
  intro hall
  obtain ⟨lines, hlen, hlogs⟩ := hall
    [[{ typeof := "object", stringify := Rendered.throws, toStr := some "[object Object]" }]]
  have h0 : (Runner.steps (Runner.mount 7 [])
      ([[{ typeof := "object", stringify := Rendered.throws,
           toStr := some "[object Object]" }]].map RunnerEvent.log)).logs = [] := by decide
  rw [h0] at hlogs
  rw [← hlogs] at hlen
  exact absurd hlen (by decide)

/-- C6, amended: a run starts with the empty log, and `console.log` calls
`c1, ..., cn` whose arguments all have a text (a JSON text for an argument of
type object, a string form for any other), delivered to `onLog` in that order,
take the log from empty to `[line(c1), ..., line(cn)]`, with `line` as the
specification words it. On the first run of a `Runner` each such call is
delivered once, so the `logs` state ends as that list and the `Runner` stays
mounted. -/
theorem onLog_lines_in_order (keyOverride : Nat) (loadCalls calls : List Call)
    (lines : List String) (h : calls.map specLine = lines.map some) :
    (Runner.mount keyOverride loadCalls).logs = [] ∧
      calls.foldlM onLog [] = some lines ∧
      (Runner.steps (Runner.mount keyOverride loadCalls) (calls.map RunnerEvent.log)).logs
        = lines ∧
      (Runner.steps (Runner.mount keyOverride loadCalls) (calls.map RunnerEvent.log)).mounted
        = true := by
  have hfold := foldlM_onLog calls lines [] h
  simp only [List.nil_append] at hfold
  have hsteps := Runner_steps_logs (Runner.mount keyOverride loadCalls) calls lines
    (by rw [Runner_mount_eq]) (by rw [Runner_mount_eq]) (by rw [Runner_mount_eq]) h
  refine ⟨by rw [Runner_mount_eq], hfold, ?_, ?_⟩
  · rw [hsteps, Runner_mount_eq]
    rfl
  · rw [hsteps, Runner_mount_eq]

/-- Witness of C6: the calls `console.log(2)` and `console.log("ok", {a: 1})`
on a `Runner` mounted with key 7 give the lines "2" and "ok" followed by the
JSON text of the object. -/
theorem onLog_lines_in_order_witness :
    List.map specLine
        [[{ typeof := "number", stringify := Rendered.text "2", toStr := some "2" }],
         [{ typeof := "string", stringify := Rendered.text "\"ok\"", toStr := some "ok" },
          { typeof := "object", stringify := Rendered.text "\x7b\"a\":1\x7d",
            toStr := some "[object Object]" }]]
        = List.map some ["2", "ok \x7b\"a\":1\x7d"] ∧
      (Runner.steps (Runner.mount 7 [])
        (List.map RunnerEvent.log
          [[{ typeof := "number", stringify := Rendered.text "2", toStr := some "2" }],
           [{ typeof := "string", stringify := Rendered.text "\"ok\"", toStr := some "ok" },
            { typeof := "object", stringify := Rendered.text "\x7b\"a\":1\x7d",
              toStr := some "[object Object]" }]])).logs
        = ["2", "ok \x7b\"a\":1\x7d"] :=
  ⟨by decide,
    (onLog_lines_in_order 7 []
      [[{ typeof := "number", stringify := Rendered.text "2", toStr := some "2" }],
       [{ typeof := "string", stringify := Rendered.text "\"ok\"", toStr := some "ok" },
        { typeof := "object", stringify := Rendered.text "\x7b\"a\":1\x7d",
          toStr := some "[object Object]" }]]
      ["2", "ok \x7b\"a\":1\x7d"] (by decide)).2.2.1⟩

/-! ## Sequences of progress updates -/

theorem saveProgressAll_cons (tid : String) (u : JSObject JSON) (us : List (JSObject JSON))
    (ls : LocalStorage) :
    saveProgressAll tid (u :: us) ls = saveProgressAll tid us (saveProgress tid u ls) := rfl

/-- The last write on `f` in `u :: us` is the last write in `us`, after `u` has been applied. -/
theorem specLastWrite_cons (u : JSObject JSON) (us : List (JSObject JSON)) (f : String)
    (before : Option JSON) :
    specLastWrite (u :: us) f before
      = specLastWrite us f (match u f with
          | some v => some v
          | none => before) := by
  unfold specLastWrite
  rw [List.reverse_cons, List.find?_append]
  cases hfind : us.reverse.find? (fun w => (w f).isSome) with
  | some w => simp
  | none =>
    cases hu : u f with
    | some v => simp [List.find?, hu]
    | none => simp [List.find?, hu]

/-- After one `saveProgress(tid, u)`, a field named by `u` has the value `u`
gives it and any other field has its previous value; for a tutorial id other
than `__proto__`, or one that has a record already. -/
theorem storedField_saveProgress (ls : LocalStorage) (tid f : String) (u : JSObject JSON)
    (h : tid ≠ "__proto__" ∨ (storedProgress ls tid).isSome) :
    storedField (saveProgress tid u ls) tid f
      = match u f with
        | some v => some v
        | none => storedField ls tid f := by
  unfold storedField
  rw [saveProgress_merge ls tid u h]
  cases hs : storedProgress ls tid with
  | some old =>
    simp only [Option.getD_some, spread]
    cases u f <;> rfl
  | none =>
    simp only [Option.getD_none, spread, JSObject.empty]
    cases u f <;> rfl

/-- Per-field last write wins: after the updates of a sequence have been applied
to `tid` in order, each field has the value given by the last update that names
it, or its previous value if none does; for a tutorial id other than
`__proto__`, or one that has a record already. -/
theorem saveProgressAll_lastWrite (ls : LocalStorage) (tid f : String)
    (updates : List (JSObject JSON))
    (h : tid ≠ "__proto__" ∨ (storedProgress ls tid).isSome) :
    storedField (saveProgressAll tid updates ls) tid f
      = specLastWrite updates f (storedField ls tid f) := by
  induction updates generalizing ls with
  | nil => rfl
  | cons u us ih =>
    have h1 : tid ≠ "__proto__" ∨ (storedProgress (saveProgress tid u ls) tid).isSome := by
      right
      rw [saveProgress_merge ls tid u h]
      rfl
    rw [saveProgressAll_cons, ih (saveProgress tid u ls) h1, specLastWrite_cons,
      storedField_saveProgress ls tid f u h]

/-- Without an own record for `__proto__`, `saveProgress("__proto__", u)` persists none. -/
theorem saveProgress_proto_of_none (ls : LocalStorage) (u : JSObject JSON)
    (h : storedProgress ls "__proto__" = none) :
    storedProgress (saveProgress "__proto__" u ls) "__proto__" = none := by
  have h0 : readJSON ls.hyperlearn_progress_v1 JSObject.empty "__proto__" = none := h
  rw [storedProgress_saveProgress, setProp_proto_of_none _ _ h0]
  exact h0

/-- Two updates that name disjoint sets of fields give the same record for `tid` in either order. -/
theorem saveProgress_comm_of_disjoint (ls : LocalStorage) (tid : String) (p q : JSObject JSON)
    (hdisj : ∀ f, p f = none ∨ q f = none) :
    storedProgress (saveProgress tid q (saveProgress tid p ls)) tid
      = storedProgress (saveProgress tid p (saveProgress tid q ls)) tid := by
  by_cases h : tid ≠ "__proto__" ∨ (storedProgress ls tid).isSome
  · have hp : tid ≠ "__proto__" ∨ (storedProgress (saveProgress tid p ls) tid).isSome := by
      right
      rw [saveProgress_merge ls tid p h]
      rfl
    have hq : tid ≠ "__proto__" ∨ (storedProgress (saveProgress tid q ls) tid).isSome := by
      right
      rw [saveProgress_merge ls tid q h]
      rfl
    rw [saveProgress_merge _ tid q hp, saveProgress_merge _ tid p hq,
      saveProgress_merge ls tid p h, saveProgress_merge ls tid q h]
    simp only [Option.getD_some]
    congr 1
    funext f
    rcases hdisj f with hf | hf <;>
      cases hp1 : p f <;> cases hq1 : q f <;> simp_all [spread]
  · have hn : tid = "__proto__" ∧ storedProgress ls tid = none := by
      constructor
      · by_contra hne
        exact h (Or.inl hne)
      · cases hs : storedProgress ls tid with
        | none => rfl
        | some r => exact absurd (Or.inr (by rw [hs]; rfl)) h
    obtain ⟨ht, hs⟩ := hn
    subst ht
    rw [saveProgress_proto_of_none _ q (saveProgress_proto_of_none ls p hs),
      saveProgress_proto_of_none _ p (saveProgress_proto_of_none ls q hs)]

/-- C11, the failing input: the updates `{notes:"a"}` and `{other:"b"}` applied
to the tutorial id `__proto__` on a store with no progress entry. The last
update naming `notes` gives `"a"`, but no record is persisted for `__proto__`,
so the field has no value; the same holds for every sequence of updates and
every field, because `p["__proto__"] = ...` adds no own property. -/
theorem saveProgressAll_proto_not_stored :
    specLastWrite
        [fun k => if k = "notes" then some (JSON.string "a") else none,
         fun k => if k = "other" then some (JSON.string "b") else none] "notes"
        (storedField LocalStorage.empty "__proto__" "notes")
      = some (JSON.string "a") ∧
    storedField
        (saveProgressAll "__proto__"
          [fun k => if k = "notes" then some (JSON.string "a") else none,
           fun k => if k = "other" then some (JSON.string "b") else none]
          LocalStorage.empty) "__proto__" "notes"
      = none ∧
    ∀ (updates : List (JSObject JSON)) (f : String),
      storedField (saveProgressAll "__proto__" updates LocalStorage.empty) "__proto__" f
        = none := by
  refine ⟨by decide, rfl, ?_⟩
  intro updates f
  have key : ∀ ls : LocalStorage, storedProgress ls "__proto__" = none →
      storedProgress (saveProgressAll "__proto__" updates ls) "__proto__" = none := by
    induction updates with
    | nil => intro ls h; exact h
    | cons u us ih =>
      intro ls h
      rw [saveProgressAll_cons]
      exact ih _ (saveProgress_proto_of_none ls u h)
  unfold storedField
  rw [key LocalStorage.empty rfl]

end HyperLearn
